import Mathlib

/-!
Verification of the RC4 brute-force search engine (src/main.cpp).

The development shallowly embeds the program: bytes are `Nat` values kept
below 256 by explicit `% 256` arithmetic, the 256-entry cipher table is a
function `Nat → Nat`, and the OpenCL kernel `rc4_decrypt`, the validator
`is_valid_plaintext`, the key enumeration and the search loop of
`brute_force_rc4_gpu` are translated into executable Lean functions.
-/

namespace RC4Fun

/-- One in-place swap of table entries at positions `a` and `b`
(the three-line `temp` swap used by the kernel). -/
def swapFn (S : Nat → Nat) (a b : Nat) : Nat → Nat :=
  fun k => if k = a then S b else if k = b then S a else S k

/-- One iteration of the key-scheduling loop of the kernel
(`j = (j + S[k] + keys[k % key_length]) % 256` followed by the swap),
acting on the pair (table, j). -/
def ksaStep (key : List Nat) (Sj : (Nat → Nat) × Nat) (k : Nat) : (Nat → Nat) × Nat :=
  let j := (Sj.2 + Sj.1 k + key.getD (k % key.length) 0) % 256
  (swapFn Sj.1 k j, j)

/-- The key-scheduling pass of the kernel: the table starts as the identity
permutation (`S[k] = k`) and the scheduling loop walks `k = 0..255` once. -/
def ksa (key : List Nat) : (Nat → Nat) × Nat :=
  (List.range 256).foldl (ksaStep key) (fun k => k, 0)

/-- The cipher state after key scheduling: the table plus the two cursors. -/
structure PrgaState where
  S : Nat → Nat
  i : Nat
  j : Nat

/-- One cursor-advance step of the output loop of the kernel:
`i = (i + 1) % 256; j = (j + S[i]) % 256;` followed by the swap. -/
def prgaStep (st : PrgaState) : PrgaState :=
  let i := (st.i + 1) % 256
  let j := (st.j + st.S i) % 256
  ⟨swapFn st.S i j, i, j⟩

/-- The state right after key scheduling, with both cursors zeroed
(`i = j = 0;` in the kernel). -/
def prgaInit (key : List Nat) : PrgaState :=
  ⟨(ksa key).1, 0, 0⟩

/-- The byte the kernel emits from a given state:
`S[(S[i] + S[j]) % 256]`. -/
def emit (st : PrgaState) : Nat :=
  st.S ((st.S st.i + st.S st.j) % 256)

/-- The keystream byte computed by work unit `gid = p` of the kernel: key
scheduling, then the cursor-advance loop `for (n = 0; n < gid; n++)` —
exactly `p` advances — then the emitted table entry. -/
def rc4_keystream_byte (key : List Nat) (p : Nat) : Nat :=
  emit (prgaStep^[p] (prgaInit key))

/-- Modelled from the spec: the per-position keystream byte as the spec
describes it, advancing the zeroed cursor pair exactly `p + 1` times before
emitting — the standard serial RC4 generator in which the byte for
position `p` is emitted inside the `(p+1)`-st advance step. The kernel in
src/main.cpp advances only `p` times; this definition exists to compare
the two. -/
def rc4SpecByte (key : List Nat) (p : Nat) : Nat :=
  emit (prgaStep^[p + 1] (prgaInit key))

/-- The whole decryption produced by one kernel launch over `N =
data.length` work units: position `p` holds
`encrypted_data[p] ^ S[(S[i]+S[j]) % 256]` computed by work unit `p`. -/
def rc4_decrypt (data key : List Nat) : List Nat :=
  (List.range data.length).map (fun p => data.getD p 0 ^^^ rc4_keystream_byte key p)

/-- C-locale `isprint` on an unsigned byte value: the visible ASCII range
0x20..0x7E. -/
def c_isprint (c : Nat) : Bool :=
  32 ≤ c && c ≤ 126

/-- C-locale `isspace` on an unsigned byte value: space, tab, newline,
vertical tab, form feed, carriage return. -/
def c_isspace (c : Nat) : Bool :=
  c == 32 || c == 9 || c == 10 || c == 11 || c == 12 || c == 13

/-- The plaintext validator: `std::all_of` of `isprint(c) || isspace(c)`
over the candidate buffer. -/
def is_valid_plaintext (data : List Nat) : Bool :=
  data.all (fun c => c_isprint c || c_isspace c)

/-- Helper for `nextPermutation`: in a non-decreasing list, replace the
first element strictly greater than `x` by `x` and return the new list
together with the replaced element. -/
def replaceFirstGreater (x : Nat) : List Nat → List Nat × Nat
  | [] => ([], x)
  | y :: ys =>
    if x < y then (x :: ys, y)
    else
      let p := replaceFirstGreater x ys
      (y :: p.1, p.2)

/-- `std::next_permutation` on a list of byte values: `some l next` when a
lexicographically next permutation exists (the rearranged list), `none`
when the list is already the last permutation (the loop in the program
then exits). A list has a next permutation exactly when some suffix does,
or when its head is smaller than the head of its (otherwise
non-increasing) tail. -/
def nextPermutation : List Nat → Option (List Nat)
  | [] => none
  | x :: xs =>
    match nextPermutation xs with
    | some xs2 => some (x :: xs2)
    | none =>
      match xs with
      | [] => none
      | y :: _ =>
        if x < y then
          let p := replaceFirstGreater x xs.reverse
          some (p.2 :: p.1)
        else none

/-- The candidate sequence produced by the `do { ... } while
(std::next_permutation(...))` loop, starting from `cur`, with explicit
fuel bounding the number of iterations (the loop itself stops when
`nextPermutation` returns `none`; since each step is a strict
lexicographic increase, `fuel = L!` iterations always suffice for lists
of length `L`). -/
def permSeq : Nat → List Nat → List (List Nat)
  | 0, _ => []
  | fuel + 1, cur =>
    cur ::
      match nextPermutation cur with
      | none => []
      | some nxt => permSeq fuel nxt

/-- The candidate keys the program tries for one key length: the loop
starts from `key_str(key_length, charset[0])` — the first charset
character repeated — and applies `std::next_permutation` until it
returns false. -/
def candidatesOfLength (charset : List Nat) (L : Nat) : List (List Nat) :=
  permSeq (Nat.factorial L) (List.replicate L (charset.getD 0 0))

/-- All candidate keys in the order the program tries them: key lengths
ascending from 1 to `maxLen`, the per-length permutation sequence inside. -/
def codeCandidates (charset : List Nat) (maxLen : Nat) : List (List Nat) :=
  (List.range maxLen).flatMap (fun i => candidatesOfLength charset (i + 1))

/-- Terminal outcome of the search: the branch taken by
`brute_force_rc4_gpu` — either the early `return decrypted_data;` after a
positive validation (carrying the found key and the decryption, both of
which the program reports), or falling through to the final `return {};`. -/
inductive Outcome where
  | found : List Nat → List Nat → Outcome
  | notFound : Outcome
deriving DecidableEq, Repr

/-- The candidate loop of `brute_force_rc4_gpu` over a list of candidate
keys: decrypt, validate, return on the first acceptance, otherwise fall
through to `notFound`. -/
def searchLoop (data : List Nat) : List (List Nat) → Outcome
  | [] => Outcome.notFound
  | k :: rest =>
    let d := rc4_decrypt data k
    if is_valid_plaintext d then Outcome.found k d else searchLoop data rest

/-- The search of `brute_force_rc4_gpu` (with the Compute Backend
operations succeeding): run the candidate loop over the enumeration
order of the program. -/
def brute_force_rc4_gpu (data charset : List Nat) (maxLen : Nat) : Outcome :=
  searchLoop data (codeCandidates charset maxLen)

/-- The byte sequence `brute_force_rc4_gpu` returns: the accepted
decryption on the `found` branch, the empty vector `{}` on exhaustion. -/
def returnValue : Outcome → List Nat
  | Outcome.found _ d => d
  | Outcome.notFound => []

/-- The diagnostic lines the program prints on each terminal branch
(the elapsed-seconds number is elided). -/
def outputLines : Outcome → List String
  | Outcome.found _ _ => ["Decryption successful, key found", "Time taken"]
  | Outcome.notFound => ["No valid key found", "Time taken"]

/-- The candidate keys actually dispatched and validated by the loop: every
candidate up to and including the first accepted one (all of them when
none is accepted). -/
def searchTrace (data : List Nat) : List (List Nat) → List (List Nat)
  | [] => []
  | k :: rest =>
    let d := rc4_decrypt data k
    if is_valid_plaintext d then [k] else k :: searchTrace data rest

/-- Index of the first candidate whose decryption the validator accepts. -/
def firstValidIdx (data : List Nat) : List (List Nat) → Option Nat
  | [] => none
  | k :: rest =>
    if is_valid_plaintext (rc4_decrypt data k) then some 0
    else
      match firstValidIdx data rest with
      | some m => some (m + 1)
      | none => none

/-- Compute Backend events one attempt performs, in program order:
`clCreateBuffer` for the transient key buffer, `clSetKernelArg`,
`clEnqueueNDRangeKernel` with its global work size, the blocking
`clEnqueueReadBuffer`, `clReleaseMemObject`. -/
inductive Ev where
  | alloc : Ev
  | bindArgs : Ev
  | enqueue : Nat → Ev
  | readback : Ev
  | release : Ev
deriving DecidableEq, BEq, Repr

/-- Backend events of one rejected attempt: the key buffer is created,
arguments bound, `N` work units enqueued, the result read back, and the
key buffer released before the next iteration. -/
def rejBlock (N : Nat) : List Ev :=
  [Ev.alloc, Ev.bindArgs, Ev.enqueue N, Ev.readback, Ev.release]

/-- Backend events of the accepted attempt: identical, except the function
returns from inside the validation branch, before reaching
`clReleaseMemObject(keys_buffer)`, so no release happens. -/
def accBlock (N : Nat) : List Ev :=
  [Ev.alloc, Ev.bindArgs, Ev.enqueue N, Ev.readback]

/-- The full Compute Backend event trace of the candidate loop, following
the program order: each iteration allocates the key buffer, binds
arguments, enqueues `data.length` work units and reads back; on a
rejection it releases the key buffer and continues, on an acceptance it
returns at once. -/
def searchEvents (data : List Nat) : List (List Nat) → List Ev
  | [] => []
  | k :: rest =>
    let d := rc4_decrypt data k
    if is_valid_plaintext d then accBlock data.length
    else rejBlock data.length ++ searchEvents data rest

/-- Which Compute Backend operation of an attempt fails (the four checked
call sites inside the candidate loop: `clCreateBuffer`, `clSetKernelArg`,
`clEnqueueNDRangeKernel`, `clEnqueueReadBuffer`). -/
inductive BkErr where
  | allocFail : BkErr
  | bindFail : BkErr
  | enqueueFail : BkErr
  | readFail : BkErr
deriving DecidableEq, Repr

/-- The candidate loop with fallible Compute Backend operations: `bk n`
tells whether (and where) the backend fails on the `n`-th attempt. A
failure raises the corresponding `throw std::runtime_error`, which
propagates out of the loop as `Except.error`; on success the read-back
yields the decryption computed by the kernel and the loop proceeds as
before. -/
def searchLoopE (bk : Nat → Option BkErr) (data : List Nat) :
    Nat → List (List Nat) → Except BkErr Outcome
  | _, [] => Except.ok Outcome.notFound
  | idx, k :: rest =>
    match bk idx with
    | some e => Except.error e
    | none =>
      let d := rc4_decrypt data k
      if is_valid_plaintext d then Except.ok (Outcome.found k d)
      else searchLoopE bk data (idx + 1) rest

/-- The candidates attempted by the fallible loop: a failing attempt is
the last one started. -/
def searchTraceE (bk : Nat → Option BkErr) (data : List Nat) :
    Nat → List (List Nat) → List (List Nat)
  | _, [] => []
  | idx, k :: rest =>
    match bk idx with
    | some _ => [k]
    | none =>
      if is_valid_plaintext (rc4_decrypt data k) then [k]
      else k :: searchTraceE bk data (idx + 1) rest

/-! Permutation invariant of the cipher table. -/

/-- The swap of the two positions `a` and `b` as a map on indices. -/
def swapIdx (a b k : Nat) : Nat :=
  if k = a then b else if k = b then a else k

/-- A table holds a permutation of 0..255 when it maps the index range
bijectively onto the value range. -/
def isPermTable (S : Nat → Nat) : Prop :=
  Set.BijOn S (Set.Iio 256) (Set.Iio 256)

lemma swapFn_eq_comp (S : Nat → Nat) (a b : Nat) :
    swapFn S a b = S ∘ swapIdx a b := by
  funext k
  simp only [swapFn, swapIdx, Function.comp]
  split_ifs <;> rfl

lemma swapIdx_involutive (a b x : Nat) : swapIdx a b (swapIdx a b x) = x := by
  simp only [swapIdx]
  split_ifs <;> omega

lemma swapIdx_mapsTo {a b : Nat} (ha : a < 256) (hb : b < 256) :
    Set.MapsTo (swapIdx a b) (Set.Iio 256) (Set.Iio 256) := by
  intro x hx
  simp only [Set.mem_Iio] at hx ⊢
  simp only [swapIdx]
  split_ifs <;> omega

lemma swapIdx_bijOn {a b : Nat} (ha : a < 256) (hb : b < 256) :
    Set.BijOn (swapIdx a b) (Set.Iio 256) (Set.Iio 256) := by
  refine Set.InvOn.bijOn ⟨?_, ?_⟩ (swapIdx_mapsTo ha hb) (swapIdx_mapsTo ha hb)
  · intro x _; exact swapIdx_involutive a b x
  · intro x _; exact swapIdx_involutive a b x

lemma isPermTable_swap {S : Nat → Nat} {a b : Nat} (hS : isPermTable S)
    (ha : a < 256) (hb : b < 256) : isPermTable (swapFn S a b) := by
  rw [isPermTable, swapFn_eq_comp]
  exact hS.comp (swapIdx_bijOn ha hb)

lemma isPermTable_id : isPermTable (fun k => k) :=
  Set.bijOn_id (Set.Iio 256)

lemma ksa_fold_inv (key : List Nat) :
    ∀ (l : List Nat) (S : Nat → Nat) (j : Nat), (∀ k ∈ l, k < 256) →
      isPermTable S → j < 256 →
      isPermTable (List.foldl (ksaStep key) (S, j) l).1 ∧
        (List.foldl (ksaStep key) (S, j) l).2 < 256 := by
  intro l
  induction l with
  | nil => intro S j _ hS hj; exact ⟨hS, hj⟩
  | cons k rest ih =>
    intro S j hmem hS hj
    have hk : k < 256 := hmem k (List.mem_cons_self k rest)
    have hj2 : (j + S k + key.getD (k % key.length) 0) % 256 < 256 :=
      Nat.mod_lt _ (by omega)
    simp only [List.foldl_cons]
    exact ih _ _ (fun x hx => hmem x (List.mem_cons_of_mem k hx))
      (isPermTable_swap hS hk hj2) hj2

lemma ksa_isPermTable (key : List Nat) : isPermTable (ksa key).1 := by
  have h := ksa_fold_inv key (List.range 256) (fun k => k) 0
    (fun k hk => List.mem_range.mp hk) isPermTable_id (by omega)
  exact h.1

/-- State invariant of the output loop: the table is a permutation and
both cursors are in range. -/
def stInv (st : PrgaState) : Prop :=
  isPermTable st.S ∧ st.i < 256 ∧ st.j < 256

lemma prgaStep_inv {st : PrgaState} (h : stInv st) : stInv (prgaStep st) := by
  obtain ⟨hS, hi, hj⟩ := h
  have hi2 : (st.i + 1) % 256 < 256 := Nat.mod_lt _ (by omega)
  have hj2 : (st.j + st.S ((st.i + 1) % 256)) % 256 < 256 := Nat.mod_lt _ (by omega)
  exact ⟨isPermTable_swap hS hi2 hj2, hi2, hj2⟩

lemma prga_iterate_inv (st : PrgaState) (h : stInv st) :
    ∀ t : Nat, stInv (prgaStep^[t] st) := by
  intro t
  induction t with
  | zero => exact h
  | succ n ih =>
    rw [Function.iterate_succ_apply']
    exact prgaStep_inv ih

lemma prgaInit_inv (key : List Nat) : stInv (prgaInit key) :=
  ⟨ksa_isPermTable key, by simp [prgaInit], by simp [prgaInit]⟩

/-- C9: for every candidate key of length at least 1, the 256-entry table
is a valid permutation of 0..255 right after the key-scheduling pass
(`t = 0`), and it stays one after every number `t` of subsequent
cursor-advance swap steps. -/
theorem c9_table_is_permutation (key : List Nat) (h : 1 ≤ key.length) (t : Nat) :
    Set.BijOn (prgaStep^[t] (prgaInit key)).S (Set.Iio 256) (Set.Iio 256) :=
  (prga_iterate_inv (prgaInit key) (prgaInit_inv key) t).1

theorem c9_table_is_permutation_witness :
    1 ≤ ([97] : List Nat).length ∧
      Set.BijOn (prgaStep^[5] (prgaInit [97])).S (Set.Iio 256) (Set.Iio 256) :=
  ⟨by decide, c9_table_is_permutation [97] (by decide) 5⟩

set_option maxRecDepth 200000 in
/-- C1: the kernel does not advance the zeroed cursor pair `p + 1` times
as claimed — its loop `for (n = 0; n < gid; n++)` advances only `p`
times. At key "a" (byte 97) and position 0 the kernel emits 185 while the
claimed `p + 1`-advance serial reference emits 16; in general the kernel
byte at position `p + 1` equals the reference byte at position `p`, an
off-by-one against the standard serial generator. -/
theorem c1_kernel_off_by_one :
    rc4_keystream_byte [97] 0 = 185 ∧
      rc4SpecByte [97] 0 = 16 ∧
      rc4_keystream_byte [97] 0 ≠ rc4SpecByte [97] 0 ∧
      ∀ (key : List Nat) (p : Nat),
        rc4_keystream_byte key (p + 1) = rc4SpecByte key p := by
  refine ⟨?_, ?_, ?_, fun key p => rfl⟩
  · decide
  · decide
  · decide

/-- C2: the enumerator only applies next-lexicographic-permutation to the
first charset character repeated, so for charset "ab" and key length 2 it
yields the single candidate "aa" instead of the 2^2 = 4 distinct keys of
the full Cartesian power; over lengths 1..2 it tries 2 candidates in
total instead of 6. -/
theorem c2_enumeration_not_cartesian :
    candidatesOfLength [97, 98] 2 = [[97, 97]] ∧
      (candidatesOfLength [97, 98] 2).length ≠ 2 ^ 2 ∧
      codeCandidates [97, 98] 2 = [[97], [97, 97]] := by
  refine ⟨by decide, by decide, by decide⟩

/-- C3: the validator accepts a buffer exactly when every byte is
printable or whitespace (C locale, unsigned byte values); an
all-printable buffer such as "Hello" is accepted, a buffer containing
byte 0x00 is rejected, and the empty buffer is accepted. -/
theorem c3_validator_characterization (D : List Nat) :
    (is_valid_plaintext D = true ↔
        ∀ b ∈ D, c_isprint b = true ∨ c_isspace b = true) ∧
      is_valid_plaintext [] = true ∧
      is_valid_plaintext [72, 101, 108, 108, 111] = true ∧
      is_valid_plaintext [72, 0, 108] = false := by
  refine ⟨?_, by decide, by decide, by decide⟩
  simp [is_valid_plaintext, List.all_eq_true, Bool.or_eq_true]

/-! Encrypt-then-decrypt round trip. -/

/-- Modelled from the spec: the repository contains no encryption routine;
per the spec, encryption and decryption are the same XOR-with-keystream
operation, so encryption is the very function the kernel applies. -/
def rc4_encrypt (data key : List Nat) : List Nat :=
  rc4_decrypt data key

lemma rc4_decrypt_length (data key : List Nat) :
    (rc4_decrypt data key).length = data.length := by
  simp [rc4_decrypt]

lemma rc4_decrypt_getElem (data key : List Nat) (i : Nat)
    (h : i < (rc4_decrypt data key).length) :
    (rc4_decrypt data key)[i] = data.getD i 0 ^^^ rc4_keystream_byte key i := by
  simp [rc4_decrypt]

/-- C5: decrypting `encrypt(P, K)` with the same key `K` by the
per-position keystream-XOR reproduces `P` exactly, for every plaintext
and every key of length at least 1. -/
theorem c5_encrypt_decrypt_roundtrip (P K : List Nat) (hK : 1 ≤ K.length) :
    rc4_decrypt (rc4_encrypt P K) K = P := by
  apply List.ext_getElem
  · rw [rc4_decrypt_length]
    simp only [rc4_encrypt]
    rw [rc4_decrypt_length]
  · intro i h1 h2
    simp only [rc4_encrypt] at h1 ⊢
    rw [rc4_decrypt_getElem]
    have hi : i < (rc4_decrypt P K).length := by
      rw [rc4_decrypt_length]; exact h2
    rw [List.getD_eq_getElem _ _ hi, rc4_decrypt_getElem]
    rw [Nat.xor_assoc, Nat.xor_self, Nat.xor_zero]
    exact List.getD_eq_getElem P 0 h2

theorem c5_encrypt_decrypt_roundtrip_witness :
    1 ≤ ([97] : List Nat).length ∧
      rc4_decrypt (rc4_encrypt [72, 105] [97]) [97] = [72, 105] :=
  ⟨by decide, c5_encrypt_decrypt_roundtrip [72, 105] [97] (by decide)⟩

/-! Early exit of the search loop. -/

lemma searchLoop_first_valid (data : List Nat) :
    ∀ (cands : List (List Nat)) (m : Nat),
      firstValidIdx data cands = some m →
      searchLoop data cands =
          Outcome.found (cands.getD m [])
            (rc4_decrypt data (cands.getD m [])) ∧
        searchTrace data cands = cands.take (m + 1) := by
  intro cands
  induction cands with
  | nil => intro m hm; simp [firstValidIdx] at hm
  | cons k rest ih =>
    intro m hm
    by_cases hv : is_valid_plaintext (rc4_decrypt data k) = true
    · simp only [firstValidIdx, hv, if_true] at hm
      cases hm
      simp [searchLoop, searchTrace, hv]
    · simp only [firstValidIdx, hv, if_false] at hm
      cases h2 : firstValidIdx data rest with
      | none => rw [h2] at hm; cases hm
      | some m2 =>
        rw [h2] at hm
        cases hm
        have := ih m2 h2
        simp only [searchLoop, searchTrace, hv, if_false]
        exact ⟨this.1, by rw [this.2]; rfl⟩

/-- C4: whenever some candidate in the enumeration order of the program
has an accepted decryption, the search returns the decryption of the
first such candidate, and the candidates actually dispatched and
validated are exactly the ones up to and including it — none after it is
touched. -/
theorem c4_stops_at_first_acceptance (data charset : List Nat) (maxLen m : Nat)
    (h : firstValidIdx data (codeCandidates charset maxLen) = some m) :
    brute_force_rc4_gpu data charset maxLen =
        Outcome.found ((codeCandidates charset maxLen).getD m [])
          (rc4_decrypt data ((codeCandidates charset maxLen).getD m [])) ∧
      searchTrace data (codeCandidates charset maxLen) =
        (codeCandidates charset maxLen).take (m + 1) :=
  searchLoop_first_valid data (codeCandidates charset maxLen) m h

theorem c4_stops_at_first_acceptance_witness :
    firstValidIdx [] (codeCandidates [97] 1) = some 0 ∧
      (brute_force_rc4_gpu [] [97] 1 =
          Outcome.found ((codeCandidates [97] 1).getD 0 [])
            (rc4_decrypt [] ((codeCandidates [97] 1).getD 0 [])) ∧
        searchTrace [] (codeCandidates [97] 1) =
          (codeCandidates [97] 1).take 1) :=
  ⟨by decide, c4_stops_at_first_acceptance [] [97] 1 0 (by decide)⟩

/-! Exhaustion and backend failure. -/

lemma searchLoop_all_rejected (data : List Nat) :
    ∀ cands : List (List Nat),
      (∀ k ∈ cands, is_valid_plaintext (rc4_decrypt data k) = false) →
      searchLoop data cands = Outcome.notFound := by
  intro cands
  induction cands with
  | nil => intro _; rfl
  | cons k rest ih =>
    intro h
    have hk := h k (List.mem_cons_self k rest)
    simp only [searchLoop, hk, if_false, Bool.false_eq_true, not_false_iff,
      ite_false]
    exact ih (fun x hx => h x (List.mem_cons_of_mem k hx))

lemma searchLoopE_all_rejected (data : List Nat) :
    ∀ (cands : List (List Nat)) (idx : Nat),
      (∀ k ∈ cands, is_valid_plaintext (rc4_decrypt data k) = false) →
      searchLoopE (fun _ => none) data idx cands = Except.ok Outcome.notFound := by
  intro cands
  induction cands with
  | nil => intro _ _; rfl
  | cons k rest ih =>
    intro idx h
    have hk := h k (List.mem_cons_self k rest)
    simp only [searchLoopE, hk, if_false, Bool.false_eq_true, not_false_iff,
      ite_false]
    exact ih (idx + 1) (fun x hx => h x (List.mem_cons_of_mem k hx))

/-- C7: when every candidate over all key lengths is rejected, the search
ends in the `notFound` branch: it returns normally (the fallible-backend
run yields `Except.ok`, not an error), the outcome is the distinct
non-`found` variant, the returned byte sequence is the empty vector, and
the printed report is the no-key-found line plus the elapsed-time line. -/
theorem c7_exhaustion_terminates_normally (data charset : List Nat) (maxLen : Nat)
    (h : ∀ k ∈ codeCandidates charset maxLen,
      is_valid_plaintext (rc4_decrypt data k) = false) :
    brute_force_rc4_gpu data charset maxLen = Outcome.notFound ∧
      returnValue (brute_force_rc4_gpu data charset maxLen) = [] ∧
      searchLoopE (fun _ => none) data 0 (codeCandidates charset maxLen) =
        Except.ok Outcome.notFound ∧
      outputLines (brute_force_rc4_gpu data charset maxLen) =
        ["No valid key found", "Time taken"] := by
  have h1 : brute_force_rc4_gpu data charset maxLen = Outcome.notFound :=
    searchLoop_all_rejected data (codeCandidates charset maxLen) h
  refine ⟨h1, ?_, searchLoopE_all_rejected data (codeCandidates charset maxLen) 0 h, ?_⟩
  · rw [h1]; rfl
  · rw [h1]; rfl

set_option maxRecDepth 200000 in
theorem c7_exhaustion_terminates_normally_witness :
    (∀ k ∈ codeCandidates [97] 1,
        is_valid_plaintext (rc4_decrypt [185] k) = false) ∧
      (brute_force_rc4_gpu [185] [97] 1 = Outcome.notFound ∧
        returnValue (brute_force_rc4_gpu [185] [97] 1) = [] ∧
        searchLoopE (fun _ => none) [185] 0 (codeCandidates [97] 1) =
          Except.ok Outcome.notFound ∧
        outputLines (brute_force_rc4_gpu [185] [97] 1) =
          ["No valid key found", "Time taken"]) :=
  ⟨by decide, c7_exhaustion_terminates_normally [185] [97] 1 (by decide)⟩

lemma searchLoopE_first_failure (bk : Nat → Option BkErr) (data : List Nat) :
    ∀ (cands : List (List Nat)) (idx m : Nat) (e : BkErr),
      m < cands.length →
      bk (idx + m) = some e →
      (∀ i, i < m → bk (idx + i) = none ∧
        is_valid_plaintext (rc4_decrypt data (cands.getD i [])) = false) →
      searchLoopE bk data idx cands = Except.error e ∧
        searchTraceE bk data idx cands = cands.take (m + 1) := by
  intro cands
  induction cands with
  | nil => intro idx m e hm; simp at hm
  | cons k rest ih =>
    intro idx m e hm he hpre
    cases m with
    | zero =>
      rw [Nat.add_zero] at he
      simp [searchLoopE, searchTraceE, he]
    | succ m2 =>
      have h0 := hpre 0 (Nat.succ_pos m2)
      rw [Nat.add_zero] at h0
      have hb0 : bk idx = none := h0.1
      have hr0 : is_valid_plaintext (rc4_decrypt data k) = false := by
        simpa using h0.2
      have hrec := ih (idx + 1) m2 e (Nat.lt_of_succ_lt_succ hm)
        (by rw [show idx + 1 + m2 = idx + (m2 + 1) by omega]; exact he)
        (fun i hi => by
          have h3 := hpre (i + 1) (Nat.succ_lt_succ hi)
          rw [show idx + 1 + i = idx + (i + 1) by omega]
          simpa using h3)
      simp only [searchLoopE, searchTraceE, hb0, hr0, if_false,
        Bool.false_eq_true, not_false_iff, ite_false]
      exact ⟨hrec.1, by rw [hrec.2]; rfl⟩

/-- C8: if the Compute Backend fails on some attempt (at buffer creation,
argument binding, kernel enqueue or read-back) while every earlier
attempt succeeded and was rejected, the whole search aborts with that
error — no candidate beyond the failing attempt is dispatched, and the
aborted run carries no decryption at all. -/
theorem c8_backend_failure_aborts (bk : Nat → Option BkErr)
    (data charset : List Nat) (maxLen m : Nat) (e : BkErr)
    (hm : m < (codeCandidates charset maxLen).length)
    (he : bk m = some e)
    (hpre : ∀ i, i < m → bk i = none ∧
      is_valid_plaintext
        (rc4_decrypt data ((codeCandidates charset maxLen).getD i [])) = false) :
    searchLoopE bk data 0 (codeCandidates charset maxLen) = Except.error e ∧
      searchTraceE bk data 0 (codeCandidates charset maxLen) =
        (codeCandidates charset maxLen).take (m + 1) := by
  apply searchLoopE_first_failure bk data (codeCandidates charset maxLen) 0 m e hm
  · rw [Nat.zero_add]; exact he
  · intro i hi
    rw [Nat.zero_add]
    exact hpre i hi

theorem c8_backend_failure_aborts_witness :
    0 < (codeCandidates [97] 1).length ∧
      (searchLoopE (fun n => if n = 0 then some BkErr.enqueueFail else none)
          [] 0 (codeCandidates [97] 1) = Except.error BkErr.enqueueFail ∧
        searchTraceE (fun n => if n = 0 then some BkErr.enqueueFail else none)
          [] 0 (codeCandidates [97] 1) = (codeCandidates [97] 1).take 1) :=
  ⟨by decide,
    c8_backend_failure_aborts (fun n => if n = 0 then some BkErr.enqueueFail else none)
      [] [97] 1 0 BkErr.enqueueFail (by decide) (by decide)
      (fun i hi => absurd hi (Nat.not_lt_zero i))⟩

/-! Empty ciphertext: the pre-loop buffer allocations. -/

/-- Failure of the run before the candidate loop is reached. -/
inductive RunError where
  | bufferCreation : RunError
deriving DecidableEq, Repr

/-- Modelled from the spec: the pre-loop allocations of
`brute_force_rc4_gpu` (src/main.cpp lines 112-122) create the ciphertext
buffer and the output buffer, each of size `data_length`, and throw
"OpenCL buffer creation error" when `clCreateBuffer` fails; per the
Compute Backend contract an allocation with an invalid size — size 0 in
particular — fails. With an otherwise healthy backend the allocations
succeed exactly when the ciphertext is non-empty, and only then does the
candidate loop run. -/
def brute_force_rc4_gpu_full (data charset : List Nat) (maxLen : Nat) :
    Except RunError Outcome :=
  if data.length = 0 then Except.error RunError.bufferCreation
  else Except.ok (searchLoop data (codeCandidates charset maxLen))

/-- C10 counterexample: at the scenario of the claim (empty ciphertext,
charset "a", maximum key length 1) the size-0 buffer allocation fails
and the function throws before any candidate is dispatched, so the run
does not return the empty byte sequence from an accepted first
candidate. -/
theorem c10_empty_run_throws :
    brute_force_rc4_gpu_full [] [97] 1 = Except.error RunError.bufferCreation ∧
      brute_force_rc4_gpu_full [] [97] 1 ≠ Except.ok (Outcome.found [97] []) :=
  ⟨rfl, fun h => Except.noConfusion h⟩

/-- C10 amended: on an empty ciphertext (non-empty charset, positive
maximum key length) the run never reaches the candidate loop — the
size-0 pre-loop buffer allocations fail and the function aborts with the
buffer-creation error, returning no byte sequence. The validator would
accept the empty buffer and the exhaustion path returns the same empty
vector, but neither is reached at `N = 0`; on any non-empty ciphertext
the full run is exactly the candidate loop. -/
theorem c10_empty_ciphertext_aborts (charset : List Nat) (maxLen : Nat)
    (h1 : charset ≠ []) (h2 : 1 ≤ maxLen) :
    brute_force_rc4_gpu_full [] charset maxLen =
        Except.error RunError.bufferCreation ∧
      is_valid_plaintext [] = true ∧
      returnValue Outcome.notFound = [] ∧
      ∀ data : List Nat, data ≠ [] →
        brute_force_rc4_gpu_full data charset maxLen =
          Except.ok (brute_force_rc4_gpu data charset maxLen) := by
  refine ⟨rfl, rfl, rfl, ?_⟩
  intro data hd
  have hlen : data.length ≠ 0 := fun h => hd (List.length_eq_zero.mp h)
  simp [brute_force_rc4_gpu_full, hlen, brute_force_rc4_gpu]

theorem c10_empty_ciphertext_aborts_witness :
    ([97] : List Nat) ≠ [] ∧ 1 ≤ 1 ∧
      (brute_force_rc4_gpu_full [] [97] 1 =
          Except.error RunError.bufferCreation ∧
        is_valid_plaintext [] = true ∧
        returnValue Outcome.notFound = [] ∧
        ∀ data : List Nat, data ≠ [] →
          brute_force_rc4_gpu_full data [97] 1 =
            Except.ok (brute_force_rc4_gpu data [97] 1)) :=
  ⟨by decide, by decide, c10_empty_ciphertext_aborts [97] 1 (by decide) (by decide)⟩

/-! Backend events: release of the transient key buffer. -/

set_option maxRecDepth 200000 in
/-- C6 counterexample: a realizable run — ciphertext the single byte
0xF9, charset "a", maximum key length 1, so the pre-loop size-1
allocations succeed — whose single attempt decrypts to the printable
byte 64 and is accepted: the run allocates one transient key buffer and
performs no release at all, because the accepted branch returns before
`clReleaseMemObject`. This refutes the claim that the key buffer is
released for every attempt whether accepted or rejected. -/
theorem c6_accepted_attempt_leaks :
    brute_force_rc4_gpu_full [249] [97] 1 =
        Except.ok (Outcome.found [97] [64]) ∧
      brute_force_rc4_gpu [249] [97] 1 = Outcome.found [97] [64] ∧
      (searchEvents [249] (codeCandidates [97] 1)).count Ev.alloc = 1 ∧
      (searchEvents [249] (codeCandidates [97] 1)).count Ev.release = 0 := by
  have hfound : brute_force_rc4_gpu [249] [97] 1 = Outcome.found [97] [64] := by
    decide
  refine ⟨?_, hfound, by decide, by decide⟩
  have hok : brute_force_rc4_gpu_full [249] [97] 1 =
      Except.ok (brute_force_rc4_gpu [249] [97] 1) := by
    simp [brute_force_rc4_gpu_full, brute_force_rc4_gpu]
  rw [hok, hfound]

lemma searchEvents_shape (data : List Nat) :
    ∀ cands : List (List Nat),
      searchEvents data cands =
        match firstValidIdx data cands with
        | some m =>
          (List.replicate m (rejBlock data.length)).flatten ++ accBlock data.length
        | none => (List.replicate cands.length (rejBlock data.length)).flatten := by
  intro cands
  induction cands with
  | nil => rfl
  | cons k rest ih =>
    by_cases hv : is_valid_plaintext (rc4_decrypt data k) = true
    · simp only [searchEvents, firstValidIdx, hv, if_true]
      rfl
    · simp only [searchEvents, firstValidIdx, hv, if_false]
      rw [ih]
      cases h2 : firstValidIdx data rest with
      | none => simp [List.replicate_succ, List.flatten_cons]
      | some m2 => simp [List.replicate_succ, List.flatten_cons, List.append_assoc]

/-- C6 amended: every attempt performs, in order, the key-buffer
allocation, the argument binding, one parallel enqueue of exactly
`N = data.length` work units and the blocking read-back; every rejected
attempt then releases the key buffer, while the accepted attempt (when
one exists) returns without releasing it — its trace is the shorter
`accBlock`. -/
theorem c6_events_shape (data charset : List Nat) (maxLen : Nat) :
    searchEvents data (codeCandidates charset maxLen) =
      match firstValidIdx data (codeCandidates charset maxLen) with
      | some m =>
        (List.replicate m (rejBlock data.length)).flatten ++ accBlock data.length
      | none =>
        (List.replicate (codeCandidates charset maxLen).length
          (rejBlock data.length)).flatten :=
  searchEvents_shape data (codeCandidates charset maxLen)

end RC4Fun
